import Mathlib

/-
Verification of the spacecode repository's physics / perception / sandbox layer.

Shallow embedding conventions:
* Python `complex` is modelled by `ℂ`, Python `float` by `ℝ` (with a dedicated
  `FVal` type where finiteness checks in the source matter).
* Mutating methods become functions returning the updated record.
* The WASM guest's behaviour during one `update` call is modelled as the list of
  host-callback invocations (`send_action` / `set_color`) it performs.
* Python's dynamic `type(obj)` used as a dict key is modelled by a `btype` tag
  carried by each body.
-/

namespace Spacecode

noncomputable section

open scoped Classical

/-- sim.py / puck.py: `EPS = 1e-5`. -/
def EPS : ℝ := 1e-5

/-- sim.py: `SimConfig` with its default values
(`math.radians(30)` is exactly `π/6`). -/
structure SimConfig where
  gravity_const : ℝ := 1
  world_min : ℂ := 0
  world_max : ℂ := 1 + Complex.I
  ship_thrust_force : ℝ := 0.01
  ship_torque : ℝ := 0.01
  ship_vision_cone : ℝ := Real.pi / 6
  ship_vision_reach : ℝ := 0.5

/-- The default `SimConfig()`. -/
def defaultCfg : SimConfig := {}

/-- Model of the Python dynamic type of a body (`type(other)` is used as a
dict key in `Game.generate_relative_view`).  The repository has `Body` and its
subclass `Ship`. -/
inductive BType where
  | body
  | ship
deriving DecidableEq

/-- sim.py: `Body` (field defaults as in the dataclass).  `btype` is the
modelled Python dynamic type of the object. -/
structure Body where
  btype : BType := .body
  old_pos : ℂ := 0
  pos : ℂ := 0
  force : ℂ := 0
  old_rot : ℂ := 1
  rot : ℂ := 1
  torque : ℝ := 0
  mass : ℝ := 1
  inertia : ℝ := 1
  radius : ℝ := 0

/-- sim.py: `Body.accel = force / mass`. -/
def Body.accel (b : Body) : ℂ := b.force / (b.mass : ℂ)

/-- sim.py: `Body.rot_accel = torque / inertia`. -/
def Body.rot_accel (b : Body) : ℝ := b.torque / b.inertia

/-- sim.py: `Body.relative_angle_to`: `cmath.phase((other.pos - self.pos) / self.rot)`. -/
def Body.relative_angle_to (self other : Body) : ℝ :=
  Complex.arg ((other.pos - self.pos) / self.rot)

/-- sim.py: `Body.distance_to`: `abs(other.pos - self.pos)`. -/
def Body.distance_to (self other : Body) : ℝ :=
  Complex.abs (other.pos - self.pos)

/-- sim.py: `BodyView`. -/
structure BodyView where
  pos : ℂ
  vel : ℂ
  rot : ℂ
  rot_vel : ℂ
  radius : ℝ
  mass : ℝ

/-- sim.py: `BodyView.from_origin_and_body`. -/
def BodyView.from_origin_and_body (origin body : Body) : BodyView where
  pos := body.pos - origin.pos
  vel := body.old_pos - body.pos
  rot := body.rot
  rot_vel := body.rot / body.old_rot
  radius := body.radius
  mass := body.mass

/-- `cmath.rect r φ = r * (cos φ + i sin φ)`. -/
def rect (r φ : ℝ) : ℂ := (r : ℂ) * Complex.exp ((φ : ℂ) * Complex.I)

/-- sim.py: the unnormalized rotational verlet value
`body.rot**2 * body.old_rot.conjugate() * cmath.rect(1.0, body.rot_accel * dt**2)`. -/
def rotationalVerletRaw (b : Body) (dt : ℝ) : ℂ :=
  b.rot ^ 2 * (starRingEnd ℂ) b.old_rot * rect 1 (b.rot_accel * dt ^ 2)

/-- sim.py: `PhysicsSystem._rotational_verlet`, including the final
renormalization `next_rot / abs(next_rot)`. -/
def rotationalVerlet (b : Body) (dt : ℝ) : ℂ :=
  rotationalVerletRaw b dt / ((Complex.abs (rotationalVerletRaw b dt) : ℝ) : ℂ)

/-- sim.py: `PhysicsSystem._positional_verlet`:
`2 * body.pos - body.old_pos + body.accel * dt**2`. -/
def positionalVerlet (b : Body) (dt : ℝ) : ℂ :=
  2 * b.pos - b.old_pos + b.accel * ((dt : ℂ)) ^ 2

/-- sim.py: `PhysicsSystem.integrate_forces` (updates positions and rotations,
then `clear_forces`). -/
def integrate_forces (b : Body) (dt : ℝ) : Body :=
  { b with
    old_pos := b.pos
    pos := positionalVerlet b dt
    old_rot := b.rot
    rot := rotationalVerlet b dt
    force := 0
    torque := 0 }

/-- One body stepped through a whole sequence of `integrate_forces` calls. -/
def integrateSeq (b : Body) (dts : List ℝ) : Body :=
  dts.foldl integrate_forces b

/-- sim.py: `PhysicsSystem.compute_attraction_force_magnitude`:
`(G * a.mass * b.mass) / max(a.distance_to(b), EPS)**2`. -/
def compute_attraction_force_magnitude (cfg : SimConfig) (a b : Body) : ℝ :=
  cfg.gravity_const * a.mass * b.mass / max (a.distance_to b) EPS ^ 2

/-- Index pairs `(i, j)` with `i < j`, in the order produced by
`itertools.combinations(bodies, 2)`. -/
def pairIndices (n : ℕ) : List (ℕ × ℕ) :=
  (((List.range n).map fun i =>
    ((List.range n).filter fun j => i < j).map fun j => (i, j))).flatten

/-- One iteration of the `_process_gravity` loop: add the (unnormalized)
pairwise forces to bodies `i` and `j` of the list. -/
def gravityPairStep (cfg : SimConfig) (bs : List Body) (ij : ℕ × ℕ) : List Body :=
  match bs.get? ij.1, bs.get? ij.2 with
  | some a, some b =>
      let f := compute_attraction_force_magnitude cfg a b
      (bs.set ij.1 { a with force := a.force + (f : ℂ) * (b.pos - a.pos) }).set ij.2
        { b with force := b.force + (f : ℂ) * (a.pos - b.pos) }
  | _, _ => bs

/-- sim.py: `Game._process_gravity` over the ordered body list. -/
def processGravity (cfg : SimConfig) (bs : List Body) : List Body :=
  (pairIndices bs.length).foldl (gravityPairStep cfg) bs

/-- The visibility filter of `Game.generate_relative_view`: a body is kept iff
neither `continue` fires, i.e. `distance ≤ reach` and the *signed* relative
angle is `≤ cone`. -/
def visibleFrom (cfg : SimConfig) (origin other : Body) : Prop :=
  origin.distance_to other ≤ cfg.ship_vision_reach ∧
    origin.relative_angle_to other ≤ cfg.ship_vision_cone

/-- One iteration of the `bodies_view` loop of `Game.generate_relative_view`:
skip the body unless it passes both filters, otherwise store its view under its
Python type (overwriting any earlier body of the same type). -/
def viewStep (cfg : SimConfig) (origin : Body) (acc : BType → Option BodyView)
    (other : Body) : BType → Option BodyView :=
  if visibleFrom cfg origin other then
    Function.update acc other.btype
      (some (BodyView.from_origin_and_body origin other))
  else acc

/-- The `bodies_view` dict built by `Game.generate_relative_view`, keyed by the
Python type of each visible body; later entries overwrite earlier ones. -/
def bodiesView (cfg : SimConfig) (origin : Body) (bodies : List Body) :
    BType → Option BodyView :=
  bodies.foldl (viewStep cfg origin) fun _ => none

/-- depl/game/util.py: `raycast(origin, direction, l1, l2)`. -/
def raycast (origin direction l1 l2 : ℂ) : Option ℂ :=
  let line_dir := l2 - l1
  let det := direction.re * (-line_dir.im) - direction.im * (-line_dir.re)
  if |det| < 1e-12 then none
  else
    let rhs := l1 - origin
    let t := (rhs.re * (-line_dir.im) - rhs.im * (-line_dir.re)) / det
    if t < 0 then none
    else some (origin + (t : ℂ) * direction)

/-- The wall list built in `Game.generate_relative_view`.  Note the corner
computation is a faithful copy of the source: `top_right` and `bottom_left`
are the Python float sums `bottom_right.real + top_left.imag` and
`top_left.real + bottom_right.imag`, used as complex numbers. -/
def wallSegments (cfg : SimConfig) : List (ℂ × ℂ) :=
  let top_left := cfg.world_min
  let bottom_right := cfg.world_max
  let top_right : ℂ := ((bottom_right.re + top_left.im : ℝ) : ℂ)
  let bottom_left : ℂ := ((top_left.re + bottom_right.im : ℝ) : ℂ)
  [(top_left, top_right), (top_right, bottom_right), (bottom_right, bottom_left),
    (bottom_left, top_left)]

/-- The raycast results of `Game.generate_relative_view` for the four walls. -/
def wallRaycasts (cfg : SimConfig) (origin : Body) : List (Option ℂ) :=
  (wallSegments cfg).map fun w => raycast origin.pos origin.rot w.1 w.2

/-- The `front_wall_view` computation: keep the successful raycasts, take their
distances to the origin and return the minimum.  Python's `min` on an empty
list raises `ValueError`; that error branch is modelled by `none`. -/
def frontWallView (cfg : SimConfig) (origin : Body) : Option ℝ :=
  (((wallRaycasts cfg origin).reduceOption).map fun c =>
    Complex.abs (c - origin.pos)).min?

/-- sim.py: `Game.generate_relative_view` (both returned components). -/
def generate_relative_view (cfg : SimConfig) (origin : Body) (bodies : List Body) :
    (BType → Option BodyView) × Option ℝ :=
  (bodiesView cfg origin bodies, frontWallView cfg origin)

/-! ### depl/game/puck.py -/

/-- depl/game/puck.py: `Config` with its defaults. -/
structure PuckConfig where
  boundary_radius : ℝ := 1
  puck_radius : ℝ := 0.1
  max_puck_accel : ℝ := 0.5
  damping : ℝ := 0.8

/-- depl/game/puck.py: `Puck`. -/
structure Puck where
  pos : ℂ
  vel : ℂ := 0

/-- depl/game/puck.py: `Puck.distance_to`. -/
def Puck.distance_to (self other : Puck) : ℝ :=
  Complex.abs (other.pos - self.pos)

/-- The real dot product `u.real * v.real + u.imag * v.imag` used in
`Puck.get_velocity_after_collision`. -/
def dot (u v : ℂ) : ℝ := u.re * v.re + u.im * v.im

/-- depl/game/puck.py: `Puck.get_velocity_after_collision`. -/
def Puck.get_velocity_after_collision (self other : Puck) : ℂ :=
  let n := self.pos - other.pos
  let dist := Complex.abs n
  if dist < EPS then self.vel
  else
    let nu := n / (dist : ℂ)
    let v_rel := self.vel - other.vel
    let proj := dot v_rel nu
    if 0 ≤ proj then self.vel
    else self.vel - (proj : ℂ) * nu

/-- One collision-pair resolution step of `Environment.update`: both new
velocities are computed from the original state, then assigned. -/
def resolvePair (a b : Puck) : Puck × Puck :=
  ({ a with vel := a.get_velocity_after_collision b },
   { b with vel := b.get_velocity_after_collision a })

/-- The unit collision normal `n` computed inside
`Puck.get_velocity_after_collision` (pointing from `other` towards `self`). -/
def collisionNormal (a b : Puck) : ℂ :=
  (a.pos - b.pos) / ((Complex.abs (a.pos - b.pos) : ℝ) : ℂ)

/-- The scalar `proj` computed inside `Puck.get_velocity_after_collision`:
the relative velocity projected onto the unit collision normal. -/
def relNormalSpeed (a b : Puck) : ℝ :=
  dot (a.vel - b.vel) (collisionNormal a b)

/-! ### depl/deployer.py -/

/-- A Python float as seen by the deployer's validation code: either a finite
real or one of the non-finite values. -/
inductive FVal where
  | fin (x : ℝ)
  | nan
  | inf
  | ninf

/-- `math.isfinite`. -/
def FVal.isFinite : FVal → Prop
  | .fin _ => True
  | _ => False

/-- The numeric payload of a finite float (junk value `0` on the non-finite
values, which the source never reaches past its `isfinite` guards). -/
def FVal.val : FVal → ℝ
  | .fin x => x
  | _ => 0

/-- The Python chained comparison `0 <= v <= 1`: false on every non-finite
value, the usual bounds check on finite ones. -/
def FVal.inUnit : FVal → Prop
  | .fin x => 0 ≤ x ∧ x ≤ 1
  | _ => False

/-- depl/deployer.py: the host-visible state of a `BotSandbox` (`self.action`,
`self.color`). -/
structure BotSandbox where
  action : ℂ
  color : ℝ × ℝ × ℝ

/-- depl/deployer.py: the state set up by `BotSandbox.__init__`:
`self.action = 0+0j`, `self.color = 1.0, 1.0, 1.0`. -/
def initSandbox : BotSandbox := ⟨0, (1, 1, 1)⟩

/-- depl/deployer.py: `BotSandbox._py_set_action`. -/
def py_set_action (s : BotSandbox) (x y : FVal) : BotSandbox :=
  if ¬x.isFinite ∨ ¬y.isFinite then s
  else { s with action := ⟨x.val, y.val⟩ }

/-- depl/deployer.py: `BotSandbox._py_set_color`. -/
def py_set_color (s : BotSandbox) (r g b : FVal) : BotSandbox :=
  if ¬r.isFinite ∨ ¬g.isFinite ∨ ¬b.isFinite then s
  else if ¬(r.inUnit ∧ g.inUnit ∧ b.inUnit) then s
  else { s with color := (r.val, g.val, b.val) }

/-- One host-callback invocation performed by the guest during `wasm_update`. -/
inductive HostCall where
  | send_action (x y : FVal)
  | set_color (r g b : FVal)

/-- Dispatch of one host callback to the sandbox state. -/
def runCall (s : BotSandbox) : HostCall → BotSandbox
  | .send_action x y => py_set_action s x y
  | .set_color r g b => py_set_color s r g b

/-- depl/deployer.py: `BotSandbox.update`, with the guest's behaviour during
`wasm_update` modelled as the list of host-callback invocations it performs.
Returns the updated sandbox and the value `update` returns (`self.action`). -/
def BotSandbox.update (s : BotSandbox) (calls : List HostCall) :
    BotSandbox × ℂ :=
  let s2 := calls.foldl runCall s
  (s2, s2.action)

/-! ### Concrete inputs used by the counterexample and evaluation theorems -/

/-- A ship at the origin with heading `1`. -/
def originShip : Body := { btype := .ship }

/-- A body a tenth of a unit straight below the origin ship (relative angle
`-π/2`). -/
def belowBody : Body := { pos := (((-1 : ℝ) / 10 : ℝ) : ℂ) * Complex.I }

/-- Two unit-mass point bodies at distance `2` on the real axis. -/
def bodyA : Body := { pos := 0 }

/-- See `bodyA`. -/
def bodyB : Body := { pos := 2 }

/-- A ship at the center of the default world rectangle, heading `-1`
(pointing at the left wall). -/
def centerShip : Body :=
  { btype := .ship
    pos := (((1 : ℝ) / 2 : ℝ) : ℂ) + (((1 : ℝ) / 2 : ℝ) : ℂ) * Complex.I
    rot := -1 }

/-- A body that rests at the origin with the default fields. -/
def restBody : Body := {}

/-- An observer that moved from `0` to `1` while rotated by `i`. -/
def c5Origin : Body := { old_pos := 0, pos := 1, rot := Complex.I }

/-- A body that stays at `1` with absolute orientation `1`. -/
def c5Target : Body := { old_pos := 1, pos := 1, rot := 1 }

/-- The default `Config()` of depl/game/puck.py. -/
def defaultPuckCfg : PuckConfig := {}

/-- A puck at the origin moving right with unit speed. -/
def puckA : Puck := { pos := 0, vel := 1 }

/-- A resting puck one fifth of a unit to the right of `puckA` (touching at the
default puck radius). -/
def puckB : Puck := { pos := (((1 : ℝ) / 5 : ℝ) : ℂ), vel := 0 }

/-! ### Helper lemmas -/

theorem py_set_color_keeps_action (s : BotSandbox) (r g b : FVal) :
    (py_set_color s r g b).action = s.action := by
  unfold py_set_color
  split_ifs <;> rfl

theorem runCall_keeps_action (s : BotSandbox) (c : HostCall)
    (h : ∀ x y, c ≠ HostCall.send_action x y) : (runCall s c).action = s.action := by
  cases c with
  | send_action x y => exact absurd rfl (h x y)
  | set_color r g b => exact py_set_color_keeps_action s r g b

theorem foldl_runCall_keeps_action (calls : List HostCall) (s : BotSandbox)
    (h : ∀ x y, HostCall.send_action x y ∉ calls) :
    (calls.foldl runCall s).action = s.action := by
  induction calls generalizing s with
  | nil => rfl
  | cons c cs ih =>
    rw [List.foldl_cons, ih _ fun x y hm => h x y (List.mem_cons_of_mem _ hm)]
    exact runCall_keeps_action s c fun x y hc =>
      h x y (hc ▸ List.mem_cons_self c cs)

theorem gvac_eq (a b : Puck) (hd : EPS ≤ Complex.abs (a.pos - b.pos)) :
    a.get_velocity_after_collision b =
      if 0 ≤ relNormalSpeed a b then a.vel
      else a.vel - ((relNormalSpeed a b : ℝ) : ℂ) * collisionNormal a b := by
  simp only [Puck.get_velocity_after_collision, relNormalSpeed, collisionNormal]
  rw [if_neg (not_lt.mpr hd)]

theorem collisionNormal_symm (a b : Puck) :
    collisionNormal b a = -collisionNormal a b := by
  unfold collisionNormal
  rw [Complex.abs.map_sub, show b.pos - a.pos = -(a.pos - b.pos) by ring, neg_div]

theorem relNormalSpeed_symm (a b : Puck) :
    relNormalSpeed b a = relNormalSpeed a b := by
  unfold relNormalSpeed
  rw [collisionNormal_symm]
  simp only [dot, Complex.neg_re, Complex.neg_im, Complex.sub_re, Complex.sub_im]
  ring

theorem collisionNormal_self_dot (a b : Puck)
    (hd : EPS ≤ Complex.abs (a.pos - b.pos)) :
    dot (collisionNormal a b) (collisionNormal a b) = 1 := by
  have hd0 : (0 : ℝ) < Complex.abs (a.pos - b.pos) :=
    lt_of_lt_of_le (by norm_num [EPS]) hd
  have h1 : dot (collisionNormal a b) (collisionNormal a b)
      = Complex.normSq (collisionNormal a b) := by
    simp [dot, Complex.normSq_apply]
  rw [h1]
  unfold collisionNormal
  rw [Complex.normSq_div, Complex.normSq_ofReal, ← Complex.sq_abs, sq]
  exact div_self (ne_of_gt (mul_pos hd0 hd0))

theorem bodiesView_foldl_isSome (cfg : SimConfig) (origin : Body)
    (bodies : List Body) (t : BType) (acc : BType → Option BodyView)
    (h : (∃ b ∈ bodies, b.btype = t ∧ visibleFrom cfg origin b) ∨ (acc t).isSome) :
    ((bodies.foldl (viewStep cfg origin) acc) t).isSome := by
  induction bodies generalizing acc with
  | nil =>
    rcases h with ⟨b, hb, _⟩ | h
    · exact absurd hb (List.not_mem_nil b)
    · exact h
  | cons c cs ih =>
    rw [List.foldl_cons]
    apply ih
    rcases h with ⟨b, hb, hbt, hbv⟩ | hacc
    · rcases List.mem_cons.mp hb with rfl | hmem
      · right
        unfold viewStep
        rw [if_pos hbv, hbt, Function.update_same]
        rfl
      · exact Or.inl ⟨b, hmem, hbt, hbv⟩
    · right
      unfold viewStep
      split_ifs with hv
      · by_cases hct : c.btype = t
        · rw [hct, Function.update_same]
          rfl
        · rw [Function.update_noteq fun hh => hct hh.symm]
          exact hacc
      · exact hacc

/-! ### Claim theorems -/

/-- C9: for every body with zero accumulated force, one verlet integration step
satisfies `pos' - pos = pos - old_pos` exactly: zero-force stepping reduces to
straight-line motion. -/
theorem zero_force_step_is_straight_line (b : Body) (dt : ℝ) (h : b.force = 0) :
    (integrate_forces b dt).pos - (integrate_forces b dt).old_pos
      = b.pos - b.old_pos := by
  simp only [integrate_forces, positionalVerlet, Body.accel, h, zero_div]
  ring

/-- Witness for `zero_force_step_is_straight_line` at a concrete body. -/
theorem zero_force_step_is_straight_line_witness :
    ({ pos := 1 } : Body).force = 0 ∧
      (integrate_forces { pos := 1 } 1).pos - (integrate_forces { pos := 1 } 1).old_pos
        = ({ pos := 1 } : Body).pos - ({ pos := 1 } : Body).old_pos :=
  ⟨rfl, zero_force_step_is_straight_line { pos := 1 } 1 rfl⟩

/-- C5 counterexample: from an origin that moved from `0` to `1` while rotated
by `i`, the view of a body resting at `1` has `vel = 0` although the body does
move relative to the origin, and its `rot` is the body's absolute orientation
`1`, not the orientation relative to the origin (`1 / i = -i`). -/
theorem bodyview_not_relative_cex :
    (BodyView.from_origin_and_body c5Origin c5Target).vel = 0 ∧
    (c5Target.pos - c5Target.old_pos) - (c5Origin.pos - c5Origin.old_pos) ≠ 0 ∧
    (BodyView.from_origin_and_body c5Origin c5Target).rot
      ≠ c5Target.rot / c5Origin.rot := by
  refine ⟨by simp [BodyView.from_origin_and_body, c5Target], ?_, ?_⟩
  · simp [c5Origin, c5Target]
  · simp only [BodyView.from_origin_and_body, c5Origin, c5Target, Complex.div_I,
      one_mul]
    intro h
    have := congrArg Complex.re h
    simp at this

/-- C5 amended: the view built by `BodyView.from_origin_and_body` is relative
only in position (`pos = body.pos - origin.pos`); its `vel` is the observed
body's own backward displacement `body.old_pos - body.pos` and its `rot` is the
body's absolute orientation, and neither depends on the origin at all. -/
theorem bodyview_fields (origin origin2 body : Body) :
    (BodyView.from_origin_and_body origin body).pos = body.pos - origin.pos ∧
    (BodyView.from_origin_and_body origin body).vel = body.old_pos - body.pos ∧
    (BodyView.from_origin_and_body origin body).rot = body.rot ∧
    (BodyView.from_origin_and_body origin body).vel
      = (BodyView.from_origin_and_body origin2 body).vel ∧
    (BodyView.from_origin_and_body origin body).rot
      = (BodyView.from_origin_and_body origin2 body).rot := by
  simp [BodyView.from_origin_and_body]

/-- C1 counterexample: after a tick in which the bot reported the action `1`,
an `update` call during which the bot performs no callback at all returns `1`,
not the neutral no-op `0`. -/
theorem stale_action_retained_cex :
    ((initSandbox.update [HostCall.send_action (FVal.fin 1) (FVal.fin 0)]).1.update
        []).2 = 1 ∧ (1 : ℂ) ≠ 0 := by
  constructor
  · simp [BotSandbox.update, runCall, py_set_action, initSandbox, FVal.isFinite,
      FVal.val, Complex.ext_iff]
  · exact one_ne_zero

/-- C1 amended: if the guest performs no `send_action` callback during an
`update` call, `update` returns the sandbox's stored action unchanged — the
action reported in an earlier tick *is* retained (only before the first
successful `send_action` is it the neutral `0` set by `__init__`). -/
theorem update_without_send_action_keeps_action (s : BotSandbox)
    (calls : List HostCall) (h : ∀ x y, HostCall.send_action x y ∉ calls) :
    (s.update calls).2 = s.action :=
  foldl_runCall_keeps_action calls s h

/-- Witness for `update_without_send_action_keeps_action` on a tick whose only
callback is a `set_color`. -/
theorem update_without_send_action_keeps_action_witness :
    (initSandbox.update [HostCall.set_color FVal.nan FVal.nan FVal.nan]).2
      = initSandbox.action :=
  update_without_send_action_keeps_action initSandbox
    [HostCall.set_color FVal.nan FVal.nan FVal.nan] (by intro x y hm; simp at hm)

/-- C6 counterexample: after a valid report of action `1`, a report
`send_action(nan, 0)` is rejected, but the tick's action stays `1` — it does
*not* fall back to the no-op `0`. -/
theorem nonfinite_action_keeps_previous_cex :
    ((initSandbox.update [HostCall.send_action (FVal.fin 1) (FVal.fin 0)]).1.update
        [HostCall.send_action FVal.nan (FVal.fin 0)]).2 = 1 ∧ (1 : ℂ) ≠ 0 := by
  constructor
  · simp [BotSandbox.update, runCall, py_set_action, initSandbox, FVal.isFinite,
      FVal.val, Complex.ext_iff]
  · exact one_ne_zero

/-- C6 amended: a report with a non-finite component is rejected and the whole
sandbox state is left unchanged — the color keeps its last valid value and the
action channel likewise keeps its last value (it does not fall back to no-op);
a finite color report with a component outside `[0,1]` is rejected outright,
leaving the stored color unchanged (no clamping). -/
theorem validation_rejects (s : BotSandbox) (x y r g b : FVal) :
    ((¬x.isFinite ∨ ¬y.isFinite) → py_set_action s x y = s) ∧
    ((¬r.isFinite ∨ ¬g.isFinite ∨ ¬b.isFinite) → py_set_color s r g b = s) ∧
    (¬(r.inUnit ∧ g.inUnit ∧ b.inUnit) → (py_set_color s r g b).color = s.color) := by
  refine ⟨fun h => ?_, fun h => ?_, fun h => ?_⟩
  · rw [py_set_action, if_pos h]
  · rw [py_set_color, if_pos h]
  · rw [py_set_color]
    split_ifs <;> rfl

/-- Witness for `validation_rejects`: a `nan` action report and an
out-of-range color report on the initial sandbox. -/
theorem validation_rejects_witness :
    py_set_action initSandbox FVal.nan (FVal.fin 0) = initSandbox ∧
    (py_set_color initSandbox (FVal.fin 2) (FVal.fin 0) (FVal.fin 0)).color
      = initSandbox.color :=
  ⟨(validation_rejects initSandbox FVal.nan (FVal.fin 0) FVal.nan FVal.nan
      FVal.nan).1 (by simp [FVal.isFinite]),
   (validation_rejects initSandbox FVal.nan FVal.nan (FVal.fin 2) (FVal.fin 0)
      (FVal.fin 0)).2.2 (by norm_num [FVal.inUnit])⟩

/-- C8: whenever the raw rotational verlet value is nonzero (so the
renormalization `next_rot / abs(next_rot)` is defined), the rotation stored by
`integrate_forces` has magnitude within `1e-6` of `1`; stated after an
arbitrary earlier sequence of integration steps, so the invariant holds along
any integration trajectory. -/
theorem rot_magnitude_invariant (b : Body) (dts : List ℝ) (dt : ℝ)
    (h : rotationalVerletRaw (integrateSeq b dts) dt ≠ 0) :
    |Complex.abs ((integrate_forces (integrateSeq b dts) dt).rot) - 1| < 1e-6 := by
  have habs : Complex.abs ((integrate_forces (integrateSeq b dts) dt).rot) = 1 := by
    simp only [integrate_forces, rotationalVerlet]
    rw [map_div₀, Complex.abs_ofReal,
      abs_of_nonneg (Complex.abs.nonneg _),
      div_self (by simpa using h)]
  rw [habs]
  norm_num

/-- Witness for `rot_magnitude_invariant` at the resting body after no prior
steps with `dt = 1`. -/
theorem rot_magnitude_invariant_witness :
    rotationalVerletRaw (integrateSeq restBody []) 1 ≠ 0 ∧
      |Complex.abs ((integrate_forces (integrateSeq restBody []) 1).rot) - 1|
        < 1e-6 := by
  have h : rotationalVerletRaw (integrateSeq restBody []) 1 ≠ 0 := by
    have : rotationalVerletRaw (integrateSeq restBody []) 1 = 1 := by
      simp [integrateSeq, restBody, rotationalVerletRaw, rect, Body.rot_accel]
    rw [this]
    exact one_ne_zero
  exact ⟨h, rot_magnitude_invariant restBody [] 1 h⟩

/-- C2: at the default config, the body one tenth of a unit straight below the
origin ship is at relative angle `-π/2`, whose absolute value exceeds the
`π/6` vision half-angle — yet it passes `generate_relative_view`'s filter
(which compares the *signed* angle against the cone) and is reported in the
view's mapping.  This contradicts the claimed iff-condition on the absolute
angle and the source's own comment that the cone spans 30 degrees in either
direction. -/
theorem vision_filter_ignores_negative_angles :
    Body.relative_angle_to originShip belowBody = -(Real.pi / 2) ∧
    visibleFrom defaultCfg originShip belowBody ∧
    ¬(|Body.relative_angle_to originShip belowBody| ≤ defaultCfg.ship_vision_cone) ∧
    bodiesView defaultCfg originShip [belowBody] BType.body
      = some (BodyView.from_origin_and_body originShip belowBody) := by
  have hang : Body.relative_angle_to originShip belowBody = -(Real.pi / 2) := by
    unfold Body.relative_angle_to originShip belowBody
    rw [show ((((-1 : ℝ) / 10 : ℝ) : ℂ) * Complex.I - ({ btype := .ship } : Body).pos)
          / ({ btype := .ship } : Body).rot
        = ((1 : ℝ) / 10 : ℝ) * -Complex.I by
      simp only []
      push_cast
      ring]
    rw [Complex.arg_real_mul _ (by norm_num), Complex.arg_neg_I]
  have hdist : Body.distance_to originShip belowBody = 1 / 10 := by
    unfold Body.distance_to originShip belowBody
    rw [show ((((-1 : ℝ) / 10 : ℝ) : ℂ) * Complex.I - ({ btype := .ship } : Body).pos)
        = (((-1 : ℝ) / 10 : ℝ) : ℂ) * Complex.I by simp]
    rw [map_mul, Complex.abs_ofReal, Complex.abs_I]
    norm_num
  have hvis : visibleFrom defaultCfg originShip belowBody := by
    constructor
    · rw [hdist]
      show (1 : ℝ) / 10 ≤ defaultCfg.ship_vision_reach
      norm_num [defaultCfg]
    · rw [hang]
      show -(Real.pi / 2) ≤ defaultCfg.ship_vision_cone
      have := Real.pi_pos
      show -(Real.pi / 2) ≤ Real.pi / 6
      linarith
  refine ⟨hang, hvis, ?_, ?_⟩
  · rw [hang]
    have := Real.pi_pos
    rw [abs_neg, abs_of_pos (by linarith)]
    show ¬(Real.pi / 2 ≤ Real.pi / 6)
    intro hle
    linarith
  · unfold bodiesView
    rw [List.foldl_cons, List.foldl_nil, viewStep, if_pos hvis]
    have : belowBody.btype = BType.body := rfl
    rw [this, Function.update_same]

/-- C3: one gravity pass over two unit-mass bodies at distance `2` adds to the
first body the force `(1/4) * (b.pos - a.pos) = 1/2` and to the second its
exact negation.  The applied force has magnitude `1/2`, while the claimed
magnitude `G*mA*mB / max(d, ε)²` evaluates to `1/4`: the direction factor
`b.pos - a.pos` is not normalized, so the claimed magnitude does not hold
(the equal-and-opposite part does). -/
theorem gravity_force_magnitude_mismatch :
    processGravity defaultCfg [bodyA, bodyB]
      = [{ bodyA with force := (1 / 2 : ℂ) },
         { bodyB with force := -(1 / 2 : ℂ) }] ∧
    Complex.abs (1 / 2 : ℂ) = 1 / 2 ∧
    compute_attraction_force_magnitude defaultCfg bodyA bodyB = 1 / 4 ∧
    ((1 : ℝ) / 2) ≠ 1 / 4 := by
  have hmag : compute_attraction_force_magnitude defaultCfg bodyA bodyB = 1 / 4 := by
    unfold compute_attraction_force_magnitude Body.distance_to bodyA bodyB defaultCfg
    rw [show (({ pos := 2 } : Body).pos - ({ pos := 0 } : Body).pos) = 2 by simp]
    rw [Complex.abs_two]
    rw [max_eq_left (by norm_num [EPS])]
    norm_num
  refine ⟨?_, ?_, hmag, by norm_num⟩
  · have hpairs : pairIndices 2 = [(0, 1)] := by decide
    unfold processGravity
    rw [show ([bodyA, bodyB] : List Body).length = 2 by rfl, hpairs,
      List.foldl_cons, List.foldl_nil]
    unfold gravityPairStep
    simp only [List.get?]
    rw [hmag]
    simp only [List.set]
    unfold bodyA bodyB
    norm_num [Complex.ext_iff]
  · rw [show (1 / 2 : ℂ) = (((1 : ℝ) / 2 : ℝ) : ℂ) by norm_num,
      Complex.abs_ofReal]
    norm_num

/-- C4: a ship strictly inside the default world rectangle at `(1/2, 1/2)`
with unit heading `-1` makes all four wall raycasts of
`generate_relative_view` fail, so the minimum is taken over an empty list —
the error branch the claim calls unreachable (Python raises `ValueError`).
The corner values `top_right` and `bottom_left` are the float sums
`bottom_right.real + top_left.imag` and `top_left.real + bottom_right.imag`,
which degenerate the wall list, losing the left and bottom walls. -/
theorem wall_raycasts_all_miss :
    Complex.abs centerShip.rot = 1 ∧
    wallRaycasts defaultCfg centerShip = [none, none, none, none] ∧
    frontWallView defaultCfg centerShip = none := by
  refine ⟨by simp [centerShip], ?_, ?_⟩
  · unfold wallRaycasts wallSegments defaultCfg centerShip raycast
    norm_num [Complex.ext_iff, Complex.add_re, Complex.add_im, Complex.sub_re,
      Complex.sub_im, Complex.mul_re, Complex.mul_im, Complex.I_re,
      Complex.I_im, Complex.one_re, Complex.one_im, Complex.zero_re,
      Complex.zero_im, Complex.neg_re, Complex.neg_im, Complex.ofReal_re,
      Complex.ofReal_im]
  · unfold frontWallView
    rw [show wallRaycasts defaultCfg centerShip = [none, none, none, none] by
      unfold wallRaycasts wallSegments defaultCfg centerShip raycast
      norm_num [Complex.ext_iff, Complex.add_re, Complex.add_im, Complex.sub_re,
        Complex.sub_im, Complex.mul_re, Complex.mul_im, Complex.I_re,
        Complex.I_im, Complex.one_re, Complex.one_im, Complex.zero_re,
        Complex.zero_im, Complex.neg_re, Complex.neg_im, Complex.ofReal_re,
        Complex.ofReal_im]]
    simp [List.reduceOption]

/-- C7: for a colliding pair of pucks at distance at least `EPS`, if the
relative velocity projected onto the unit normal is non-negative the
resolution leaves both velocities unchanged; otherwise each velocity has the
relative normal projection subtracted symmetrically (`a` loses it, `b` gains
it), the change is purely along the normal (zero tangential component), and the
post-resolution relative velocity projected onto the normal is non-negative. -/
theorem collision_resolution_spec (cfg : PuckConfig) (a b : Puck)
    (_hcol : a.distance_to b ≤ 2 * cfg.puck_radius)
    (hd : EPS ≤ Complex.abs (a.pos - b.pos)) :
    (0 ≤ relNormalSpeed a b → resolvePair a b = (a, b)) ∧
    (relNormalSpeed a b < 0 →
      (resolvePair a b).1.vel
          = a.vel - ((relNormalSpeed a b : ℝ) : ℂ) * collisionNormal a b ∧
      (resolvePair a b).2.vel
          = b.vel + ((relNormalSpeed a b : ℝ) : ℂ) * collisionNormal a b ∧
      dot ((resolvePair a b).1.vel - a.vel) (Complex.I * collisionNormal a b) = 0 ∧
      dot ((resolvePair a b).2.vel - b.vel) (Complex.I * collisionNormal a b) = 0 ∧
      0 ≤ dot ((resolvePair a b).1.vel - (resolvePair a b).2.vel)
            (collisionNormal a b)) := by
  have hd' : EPS ≤ Complex.abs (b.pos - a.pos) := by
    rw [Complex.abs.map_sub]; exact hd
  have ha := gvac_eq a b hd
  have hb := gvac_eq b a hd'
  rw [relNormalSpeed_symm, collisionNormal_symm] at hb
  constructor
  · intro hp
    unfold resolvePair
    rw [ha, hb, if_pos hp, if_pos hp]
  · intro hp
    have hnp : ¬0 ≤ relNormalSpeed a b := not_le.mpr hp
    have hnn := collisionNormal_self_dot a b hd
    unfold resolvePair
    simp only [ha, hb, if_neg hnp]
    refine ⟨by trivial, by ring, ?_, ?_, ?_⟩
    · simp only [dot, Complex.sub_re, Complex.sub_im, Complex.mul_re,
        Complex.mul_im, Complex.I_re, Complex.I_im, Complex.ofReal_re,
        Complex.ofReal_im]
      ring
    · simp only [dot, Complex.sub_re, Complex.sub_im, Complex.neg_re,
        Complex.neg_im, Complex.mul_re, Complex.mul_im, Complex.I_re,
        Complex.I_im, Complex.ofReal_re, Complex.ofReal_im]
      ring
    · have hexp :
          dot ((a.vel - ((relNormalSpeed a b : ℝ) : ℂ) * collisionNormal a b)
              - (b.vel - ((relNormalSpeed a b : ℝ) : ℂ) * -collisionNormal a b))
            (collisionNormal a b)
          = dot (a.vel - b.vel) (collisionNormal a b)
              - 2 * relNormalSpeed a b
                  * dot (collisionNormal a b) (collisionNormal a b) := by
        simp only [dot, Complex.sub_re, Complex.sub_im, Complex.add_re,
          Complex.add_im, Complex.neg_re, Complex.neg_im, Complex.mul_re,
          Complex.mul_im, Complex.ofReal_re, Complex.ofReal_im]
        ring
      rw [hexp, hnn]
      have hps : dot (a.vel - b.vel) (collisionNormal a b) = relNormalSpeed a b :=
        rfl
      rw [hps]
      linarith

/-- Witness for `collision_resolution_spec`: two touching pucks at distance
`1/5`, the left one moving right into the resting right one. -/
theorem collision_resolution_spec_witness :
    puckA.distance_to puckB ≤ 2 * defaultPuckCfg.puck_radius ∧
    EPS ≤ Complex.abs (puckA.pos - puckB.pos) ∧
    ((0 ≤ relNormalSpeed puckA puckB → resolvePair puckA puckB = (puckA, puckB)) ∧
     (relNormalSpeed puckA puckB < 0 →
      (resolvePair puckA puckB).1.vel
          = puckA.vel
            - ((relNormalSpeed puckA puckB : ℝ) : ℂ) * collisionNormal puckA puckB ∧
      (resolvePair puckA puckB).2.vel
          = puckB.vel
            + ((relNormalSpeed puckA puckB : ℝ) : ℂ) * collisionNormal puckA puckB ∧
      dot ((resolvePair puckA puckB).1.vel - puckA.vel)
          (Complex.I * collisionNormal puckA puckB) = 0 ∧
      dot ((resolvePair puckA puckB).2.vel - puckB.vel)
          (Complex.I * collisionNormal puckA puckB) = 0 ∧
      0 ≤ dot ((resolvePair puckA puckB).1.vel - (resolvePair puckA puckB).2.vel)
            (collisionNormal puckA puckB))) := by
  have h1 : puckA.distance_to puckB ≤ 2 * defaultPuckCfg.puck_radius := by
    unfold Puck.distance_to puckA puckB defaultPuckCfg
    rw [show ((((1 : ℝ) / 5 : ℝ) : ℂ) - 0) = (((1 : ℝ) / 5 : ℝ) : ℂ) by ring,
      Complex.abs_ofReal, abs_of_nonneg (by norm_num : (0 : ℝ) ≤ (1 : ℝ) / 5)]
    norm_num
  have h2 : EPS ≤ Complex.abs (puckA.pos - puckB.pos) := by
    unfold puckA puckB
    rw [Complex.abs.map_sub, sub_zero, Complex.abs_ofReal,
      abs_of_nonneg (by norm_num : (0 : ℝ) ≤ (1 : ℝ) / 5)]
    norm_num [EPS]
  exact ⟨h1, h2, collision_resolution_spec defaultPuckCfg puckA puckB h1 h2⟩

/-- C10: the `bodies_view` mapping of `generate_relative_view` is keyed by the
Python type of each body, so a visible body appended to the world overwrites
whatever earlier body of the same type was stored (only the last visible body
of each type in iteration order is reported), while an invisible one changes
nothing; moreover the origin ship itself passes the visibility filter with
respect to itself (distance `0`, angle `0`) whenever the reach and cone are
non-negative, so whenever it is in the world list the mapping has an entry at
its own type. -/
theorem relative_view_keyed_by_type (cfg : SimConfig) (origin : Body)
    (bodies : List Body) (b : Body)
    (hreach : 0 ≤ cfg.ship_vision_reach) (hcone : 0 ≤ cfg.ship_vision_cone) :
    (visibleFrom cfg origin b →
      bodiesView cfg origin (bodies ++ [b])
        = Function.update (bodiesView cfg origin bodies) b.btype
            (some (BodyView.from_origin_and_body origin b))) ∧
    (¬visibleFrom cfg origin b →
      bodiesView cfg origin (bodies ++ [b]) = bodiesView cfg origin bodies) ∧
    visibleFrom cfg origin origin ∧
    (origin ∈ bodies → (bodiesView cfg origin bodies origin.btype).isSome) := by
  have hself : visibleFrom cfg origin origin := by
    constructor
    · unfold Body.distance_to
      rw [sub_self, map_zero]
      exact hreach
    · unfold Body.relative_angle_to
      rw [sub_self, zero_div, Complex.arg_zero]
      exact hcone
  refine ⟨?_, ?_, hself, ?_⟩
  · intro hv
    unfold bodiesView
    rw [List.foldl_append, List.foldl_cons, List.foldl_nil]
    unfold viewStep
    rw [if_pos hv]
  · intro hv
    unfold bodiesView
    rw [List.foldl_append, List.foldl_cons, List.foldl_nil]
    unfold viewStep
    rw [if_neg hv]
  · intro hmem
    exact bodiesView_foldl_isSome cfg origin bodies origin.btype _
      (Or.inl ⟨origin, hmem, rfl, hself⟩)

/-- Witness for `relative_view_keyed_by_type` at the default config with the
origin ship observing a world containing itself. -/
theorem relative_view_keyed_by_type_witness :
    0 ≤ defaultCfg.ship_vision_reach ∧ 0 ≤ defaultCfg.ship_vision_cone ∧
    ((visibleFrom defaultCfg originShip originShip →
      bodiesView defaultCfg originShip ([originShip] ++ [originShip])
        = Function.update (bodiesView defaultCfg originShip [originShip])
            originShip.btype
            (some (BodyView.from_origin_and_body originShip originShip))) ∧
     (¬visibleFrom defaultCfg originShip originShip →
      bodiesView defaultCfg originShip ([originShip] ++ [originShip])
        = bodiesView defaultCfg originShip [originShip]) ∧
     visibleFrom defaultCfg originShip originShip ∧
     (originShip ∈ [originShip] →
      (bodiesView defaultCfg originShip [originShip] originShip.btype).isSome)) := by
  have hr : (0 : ℝ) ≤ defaultCfg.ship_vision_reach := by
    show (0 : ℝ) ≤ 0.5
    norm_num
  have hc : (0 : ℝ) ≤ defaultCfg.ship_vision_cone := by
    show (0 : ℝ) ≤ Real.pi / 6
    positivity
  exact ⟨hr, hc,
    relative_view_keyed_by_type defaultCfg originShip [originShip] originShip hr hc⟩

end

end Spacecode
